import Mathlib

/-!
Verification development for the slint LSP live-preview coordinator
(src/tools/lsp/preview.rs).

The file shallowly embeds the code the claims are about:

* the reload coordination state machine: the content cache, the
  PreviewFutureState enum, set_contents, load_preview and the worker loop
  run by run_in_ui_thread (split here into its lock-held prologue and the
  completion of reload_preview_impl), together with a small-step transition
  relation over the whole system and its reachable states;
* the selection and hit-testing engine: element trees,
  self_or_embedded_component_root, select_element_at_impl, root_element;
* the highlight and notification bridge: highlight and
  show_document_request_from_element_callback.

Paths and texts are strings, u32 offsets are naturals, the pointer identity
of a shared source file is a numeric identifier, and calls into the
external rendering and editor layers (update_preview_area,
update_highlight) are recorded as events rather than performed.
-/

namespace Slint

/-- State of the preview worker future, translated from the
PreviewFutureState enum of preview.rs: Pending (no future running),
PreLoading (future started, compilation not yet started), Loading
(currently compiling), NeedsReload (compiling an outdated preview that
must be restarted). -/
inductive PreviewFutureState where
  | Pending
  | PreLoading
  | Loading
  | NeedsReload
  deriving DecidableEq, Repr

/-- Modelled from the spec: the PreviewComponent request payload (declared
in the common module, outside this source file) carries the target file
path, an optional named sub-component and a style override, as used by
preview.rs through the fields path, component and style. -/
structure PreviewComponent where
  path : String
  component : Option String
  style : String
  deriving DecidableEq, Repr

/-- Modelled from the spec: the PreviewConfig payload (declared in the
common module, outside this source file) carries the hide_ui flag and the
include and library search paths, as used by preview.rs. -/
structure PreviewConfig where
  hide_ui : Option Bool
  include_paths : List String
  library_paths : List String
  deriving DecidableEq, Repr

/-- Association-list lookup standing for HashMap get on the source cache. -/
def lookupSrc : List (String × String) → String → Option String
  | [], _ => none
  | (q, u) :: rest, p => if q = p then some u else lookupSrc rest p

/-- Association-list insert standing for HashMap insert on the source
cache: replaces the binding of the key when present, appends otherwise. -/
def insertSrc (p t : String) : List (String × String) → List (String × String)
  | [] => [(p, t)]
  | (q, u) :: rest => if q = p then (p, t) :: rest else (q, u) :: insertSrc p t rest

/-- Set insert standing for HashSet insert on the dependency set. -/
def insertDep (p : String) (d : List String) : List String :=
  if p ∈ d then d else p :: d

/-- The ContentCache of preview.rs: source text per path, the dependency
set of the running compile, the current request, the configuration, the
loading state, the stored highlight and the visibility flag. -/
structure ContentCache where
  source_code : List (String × String)
  dependency : List String
  current : PreviewComponent
  config : PreviewConfig
  loading_state : PreviewFutureState
  highlight : Option (String × Nat)
  ui_is_visible : Bool
  deriving DecidableEq, Repr

/-- Control location of the single worker future spawned by load_preview:
either it is about to run the lock-held prologue at the top of the loop
body, or it is awaiting reload_preview_impl with its snapshot of the
request and configuration. -/
inductive WorkerPhase where
  | atLoopStart
  | compiling (snapshot : PreviewComponent) (cfg : PreviewConfig)
  deriving DecidableEq, Repr

/-- Whole-system state: the shared content cache, the worker future when
one is alive, the log of results handed to update_preview_area (each entry
is the request snapshot whose compiled artifact was published), whether an
assert or an unreachable branch fired, and ghost counters of load_preview
invocations and of started compile passes. -/
structure Sys where
  cache : ContentCache
  worker : Option WorkerPhase
  published : List PreviewComponent
  panicked : Bool
  reloads : Nat
  compiles : Nat
  deriving DecidableEq, Repr

/-- Translation of load_preview: store the request as current, return if
the UI is not visible, otherwise transition the loading state (Pending
spawns the worker future and moves to PreLoading, Loading is marked
NeedsReload, PreLoading and NeedsReload are left alone). The reloads ghost
counter records the invocation. -/
def load_preview (pc : PreviewComponent) (s : Sys) : Sys :=
  if s.cache.ui_is_visible = false then
    { s with reloads := s.reloads + 1, cache := { s.cache with current := pc } }
  else
    match s.cache.loading_state with
    | .Pending =>
      { s with reloads := s.reloads + 1,
               cache := { s.cache with current := pc, loading_state := .PreLoading },
               worker := some .atLoopStart }
    | .PreLoading =>
      { s with reloads := s.reloads + 1, cache := { s.cache with current := pc } }
    | .Loading =>
      { s with reloads := s.reloads + 1,
               cache := { s.cache with current := pc, loading_state := .NeedsReload } }
    | .NeedsReload =>
      { s with reloads := s.reloads + 1, cache := { s.cache with current := pc } }

/-- Storing new source text without any reload: the part of set_contents
before its dependency test. -/
def sourceUpdate (p t : String) (s : Sys) : Sys :=
  { s with cache := { s.cache with source_code := insertSrc p t s.cache.source_code } }

/-- Translation of set_contents: insert the text into the source cache;
when the path is a tracked dependency and the content differs from the
cached value, reload the current component provided the UI is visible and
a current path is set. -/
def set_contents (p t : String) (s : Sys) : Sys :=
  if p ∈ s.cache.dependency then
    match lookupSrc s.cache.source_code p with
    | some old =>
      if t = old then sourceUpdate p t s
      else if s.cache.ui_is_visible = true ∧ s.cache.current.path ≠ "" then
        load_preview s.cache.current (sourceUpdate p t s)
      else sourceUpdate p t s
    | none =>
      if s.cache.ui_is_visible = true ∧ s.cache.current.path ≠ "" then
        load_preview s.cache.current (sourceUpdate p t s)
      else sourceUpdate p t s
  else sourceUpdate p t s

/-- Translation of config_changed: when the configuration differs, store
it and reload the current component provided the UI is visible and a
current path is set. -/
def config_changed (config : PreviewConfig) (s : Sys) : Sys :=
  if s.cache.config = config then s
  else if s.cache.ui_is_visible = true ∧ s.cache.current.path ≠ "" then
    load_preview s.cache.current { s with cache := { s.cache with config := config } }
  else { s with cache := { s.cache with config := config } }

/-- Modelled from the spec: the preview visibility toggle lives in the
platform layer outside this source file. While the UI is hidden requests
are only absorbed into the current slot; when visibility turns on, a
request is synthesized from the stored current slot to catch up. -/
def set_ui_visible (b : Bool) (s : Sys) : Sys :=
  if b = true ∧ s.cache.current.path ≠ "" then
    load_preview s.cache.current { s with cache := { s.cache with ui_is_visible := b } }
  else { s with cache := { s.cache with ui_is_visible := b } }

/-- Translation of the lock-held prologue at the top of the worker loop
body spawned by load_preview: the assert_eq on PreLoading (a violation is
recorded as a panic), the exit to Pending when the UI is hidden, and
otherwise the transition to Loading that clears the dependency set,
snapshots the current request and configuration and clears the style of
the stored current request. -/
def worker_prologue (s : Sys) : Sys :=
  if s.cache.loading_state ≠ .PreLoading then { s with panicked := true }
  else if s.cache.ui_is_visible = false then
    { s with cache := { s.cache with loading_state := .Pending }, worker := none }
  else
    { s with
      cache := { s.cache with
                   loading_state := .Loading,
                   dependency := [],
                   current := { s.cache.current with style := "" } },
      worker := some (.compiling s.cache.current s.cache.config),
      compiles := s.compiles + 1 }

/-- Translation of a file read performed through get_file_from_cache while
the compile is running: the path is recorded into the dependency set. -/
def file_read (p : String) (s : Sys) : Sys :=
  { s with cache := { s.cache with dependency := insertDep p s.cache.dependency } }

/-- Translation of the completion of reload_preview_impl followed by the
lock-held epilogue of the worker loop body: on success the compiled result
is handed to update_preview_area (recorded in the published log) before
the loading state is inspected; then Loading finalizes to Pending and the
future exits, NeedsReload moves back to PreLoading for another loop
iteration, and the two remaining states are unreachable branches recorded
as a panic. -/
def compile_finish (ok : Bool) (s : Sys) : Sys :=
  match s.worker with
  | some (.compiling snap _) =>
    let s1 := if ok then { s with published := s.published ++ [snap] } else s
    match s1.cache.loading_state with
    | .Loading =>
      { s1 with cache := { s1.cache with loading_state := .Pending }, worker := none }
    | .NeedsReload =>
      { s1 with cache := { s1.cache with loading_state := .PreLoading },
                worker := some .atLoopStart }
    | .Pending => { s1 with panicked := true }
    | .PreLoading => { s1 with panicked := true }
  | _ => s

/-- Translation of highlight: when the requested highlight equals the
stored one nothing happens; otherwise it is stored and, when the path is
absent or is a tracked dependency, update_highlight is called (its
argument pair is returned, none meaning no call). -/
def highlight (path : Option String) (offset : Nat) (cache : ContentCache) :
    ContentCache × Option (String × Nat) :=
  if cache.highlight = Option.map (fun p => (p, offset)) path then
    (cache, none)
  else
    match path with
    | none => ({ cache with highlight := none }, some ("", offset))
    | some p =>
      if p ∈ cache.dependency then
        ({ cache with highlight := some (p, offset) }, some (p, offset))
      else
        ({ cache with highlight := some (p, offset) }, none)

/-- The highlight entry point as a system step (the emitted
update_highlight call does not feed back into the coordinator state). -/
def highlight_step (p : Option String) (o : Nat) (s : Sys) : Sys :=
  { s with cache := (highlight p o s.cache).1 }

/-- The initial system state: the default ContentCache (empty cache and
dependency set, empty current request, Pending loading state, no
highlight, UI not visible), no worker, nothing published. -/
def init : Sys :=
  { cache := { source_code := [], dependency := [],
               current := { path := "", component := none, style := "" },
               config := { hide_ui := none, include_paths := [], library_paths := [] },
               loading_state := .Pending, highlight := none, ui_is_visible := false },
    worker := none, published := [], panicked := false, reloads := 0, compiles := 0 }

/-- Small-step transition relation of the coordinator: the externally
triggered entry points of preview.rs (load_preview, set_contents,
config_changed, highlight), the spec-modelled visibility toggle, and the
internal steps of the worker future (prologue, tracked file reads while
compiling, completion of the compile with either outcome). -/
inductive Step : Sys → Sys → Prop where
  | load (pc : PreviewComponent) (s : Sys) : Step s (load_preview pc s)
  | edit (p t : String) (s : Sys) : Step s (set_contents p t s)
  | reconfigure (c : PreviewConfig) (s : Sys) : Step s (config_changed c s)
  | visibility (b : Bool) (s : Sys) : Step s (set_ui_visible b s)
  | mark (p : Option String) (o : Nat) (s : Sys) : Step s (highlight_step p o s)
  | prologue (s : Sys) : s.worker = some .atLoopStart → Step s (worker_prologue s)
  | read (p : String) (snap : PreviewComponent) (cfg : PreviewConfig) (s : Sys) :
      s.worker = some (.compiling snap cfg) → Step s (file_read p s)
  | finish (ok : Bool) (snap : PreviewComponent) (cfg : PreviewConfig) (s : Sys) :
      s.worker = some (.compiling snap cfg) → Step s (compile_finish ok s)

/-- States reachable from the initial state through the step relation. -/
inductive Reachable : Sys → Prop where
  | init : Reachable init
  | step {s s2 : Sys} : Reachable s → Step s s2 → Reachable s2

/-- Consistency of the worker control location with the loading state: no
worker exactly in Pending, a worker about to run the prologue exactly in
PreLoading, a worker awaiting the compile exactly in Loading or
NeedsReload. -/
def workerOK : Option WorkerPhase → PreviewFutureState → Prop
  | none, st => st = .Pending
  | some .atLoopStart, st => st = .PreLoading
  | some (.compiling _ _), st => st = .Loading ∨ st = .NeedsReload

/-- System invariant: no assert or unreachable branch has fired and the
worker location is consistent with the loading state. -/
def Inv (s : Sys) : Prop :=
  s.panicked = false ∧ workerOK s.worker s.cache.loading_state

/-- The loading-state transitions a single step may take: stutter, or one
of Pending to PreLoading, PreLoading to Loading, PreLoading to Pending,
Loading to Pending, Loading to NeedsReload, NeedsReload to PreLoading. -/
def LoadTransOK (a b : PreviewFutureState) : Prop :=
  a = b ∨
  (a = .Pending ∧ b = .PreLoading) ∨
  (a = .PreLoading ∧ b = .Loading) ∨
  (a = .PreLoading ∧ b = .Pending) ∨
  (a = .Loading ∧ b = .Pending) ∨
  (a = .Loading ∧ b = .NeedsReload) ∨
  (a = .NeedsReload ∧ b = .PreLoading)

/-- Folding a list of load_preview requests over a state. -/
def apply_requests (s : Sys) (pcs : List PreviewComponent) : Sys :=
  List.foldl (fun t q => load_preview q t) s pcs

/-- Folding a list of set_contents edits of one path over a state. -/
def apply_edits (s : Sys) (p : String) (ts : List String) : Sys :=
  List.foldl (fun t txt => set_contents p txt t) s ts

/-- Source node attached to an element: the identity of its shared source
file (a number standing for the reference identity of the Rc pointer
compared by Rc ptr_eq) and the start and past-the-end offsets of its text
range. -/
structure SNode where
  source_file : Nat
  range_start : Nat
  range_end : Nat
  deriving DecidableEq, Repr

/-- Element tree node, translated from the fields of the object_tree
Element that preview.rs reads: whether the element carries a repeated
marker, the root element of its base component when the base type is a
component, its children in document order, and its optional source node. -/
inductive Element where
  | mk (repeated : Bool) (base_root : Option Element) (children : List Element)
      (node : Option SNode)

/-- Whether the element carries a repeated marker. -/
def Element.repeated : Element → Bool
  | .mk r _ _ _ => r

/-- Root element of the base component, when the base type is a component. -/
def Element.base_root : Element → Option Element
  | .mk _ b _ _ => b

/-- Children of the element in document order. -/
def Element.children : Element → List Element
  | .mk _ _ c _ => c

/-- Optional source node of the element. -/
def Element.node : Element → Option SNode
  | .mk _ _ _ n => n

/-- Translation of self_or_embedded_component_root: an element with a
repeated marker whose base type is a component is replaced by the root
element of that component; any other element is returned unchanged. -/
def self_or_embedded_component_root (element : Element) : Element :=
  if element.repeated = true then
    match element.base_root with
    | some base => base
    | none => element
  else element

/-- Logical point with integer coordinates (the algorithms under test are
generic in the coordinate arithmetic). -/
structure LogicalPoint where
  x : Int
  y : Int
  deriving DecidableEq, Repr

/-- Logical rectangle given by origin and size. -/
structure LogicalRect where
  origin_x : Int
  origin_y : Int
  width : Int
  height : Int
  deriving DecidableEq, Repr

/-- Containment test of a point in a rectangle as used through
LogicalRect: closed on the low edges, open on the high edges. -/
def LogicalRect.contains (r : LogicalRect) (p : LogicalPoint) : Bool :=
  decide (r.origin_x ≤ p.x) && decide (p.x < r.origin_x + r.width) &&
  decide (r.origin_y ≤ p.y) && decide (p.y < r.origin_y + r.height)

/-- Translation of the selection result of select_element_at_impl: walk
the children of the given root in document order, replace each child by
self_or_embedded_component_root of it, skip children without an on-screen
position (the element_position query of the component instance is the
external parameter position), and return the first one whose position
contains the click point. -/
def select_element_at_impl (position : Element → Option LogicalRect)
    (click : LogicalPoint) (root : Element) : Option Element :=
  root.children.findSome? fun c0 =>
    let c := self_or_embedded_component_root c0
    match position c with
    | none => none
    | some r => if r.contains click then some c else none

/-- The containment predicate select_element_at_impl applies to a
(replaced) child: it has an on-screen position and that position contains
the click point. -/
def hit_pred (position : Element → Option LogicalRect) (click : LogicalPoint)
    (c : Element) : Bool :=
  match position c with
  | none => false
  | some r => r.contains click

/-- Translation of element_source_range: the shared source file identity
and text range of the source node of the element, when it has one. -/
def element_source_range (element : Element) : Option (Nat × Nat × Nat) :=
  match element.node with
  | none => none
  | some n => some (n.source_file, n.range_start, n.range_end)

/-- Translation of root_element: starting from the nominal root element of
the compiled component, return its single child instead when the root has
exactly one child, both have source ranges, the two source files are
identical by pointer identity and the text ranges are equal; in every
other case return the nominal root. -/
def root_element (root : Element) : Element :=
  if root.children.length ≠ 1 then root
  else
    match root.children.head? with
    | none => root
    | some child =>
      match element_source_range root with
      | none => root
      | some (rsf, rs, re) =>
        match element_source_range child with
        | none => root
        | some (csf, cs, ce) =>
          if rsf = csf ∧ rs = cs ∧ re = ce then child else root

/-- Root resolution written from the words of the specification claim: the
single child is preferred exactly when the root has exactly one child,
both root and child have source nodes, the nodes come from the identical
source file and their text ranges are equal; otherwise the nominal root. -/
def root_element_spec (root : Element) : Element :=
  match root.children with
  | [child] =>
    match root.node, child.node with
    | some rn, some cn =>
      if rn.source_file = cn.source_file ∧ rn.range_start = cn.range_start ∧
         rn.range_end = cn.range_end then child
      else root
    | _, _ => root
  | _ => root

/-- Zero-based position of the lsp_types protocol. -/
structure Position where
  line : Nat
  character : Nat
  deriving DecidableEq, Repr

/-- Range of the lsp_types protocol. -/
structure Range where
  start : Position
  «end» : Position
  deriving DecidableEq, Repr

/-- ShowDocumentParams of the lsp_types protocol, with the URI kept as a
string. -/
structure ShowDocumentParams where
  uri : String
  external : Option Bool
  take_focus : Option Bool
  selection : Option Range
  deriving DecidableEq, Repr

/-- Model of Url from_file_path of the external url crate: the conversion
to a file URL succeeds exactly for absolute paths, those beginning with a
slash. -/
def url_from_file_path (file : String) : Option String :=
  match file.data with
  | [] => none
  | c :: _ => if c = '/' then some (String.append "file://" file) else none

/-- Translation of show_document_request_from_element_callback: nothing
when the file is empty or either endpoint of the range has the sentinel
column zero; otherwise the request built over the file URL of the path,
when that conversion succeeds. -/
def show_document_request_from_element_callback (file : String) (range : Range) :
    Option ShowDocumentParams :=
  if file = "" ∨ range.start.character = 0 ∨ range.«end».character = 0 then none
  else
    Option.map
      (fun uri =>
        { uri := uri, external := some false, take_focus := some true,
          selection := some range })
      (url_from_file_path file)

/-- Concrete fixture: a request for the file a.ui. -/
def pcA : PreviewComponent := { path := "a.ui", component := none, style := "" }

/-- Concrete fixture: a request for the file b.ui. -/
def pcB : PreviewComponent := { path := "b.ui", component := none, style := "" }

/-- Concrete fixture: the initial state with the UI turned visible. -/
def sysV : Sys := set_ui_visible true init

/-- Concrete fixture: a request for a.ui arrives, the worker is spawned
and the loading state is PreLoading. -/
def sysP : Sys := load_preview pcA sysV

/-- Concrete fixture: the UI is hidden again before the worker begins. -/
def sysH : Sys := set_ui_visible false sysP

/-- Concrete fixture: the worker prologue runs while the UI is hidden. -/
def sysQ : Sys := worker_prologue sysH

/-- Concrete fixture: the worker prologue runs on sysP, the compile of the
request for a.ui is in flight and the loading state is Loading. -/
def sysL : Sys := worker_prologue sysP

/-- Concrete fixture: a request for b.ui arrives while the compile of a.ui
is in flight, marking it stale: the loading state is NeedsReload. -/
def sysS : Sys := load_preview pcB sysL

/-- Concrete fixture: the stale compile of a.ui completes successfully. -/
def sysF : Sys := compile_finish true sysS

/-- Concrete fixture: a cache whose dependency set holds a.ui. -/
def cacheD : ContentCache :=
  { source_code := [("a.ui", "X")], dependency := ["a.ui"], current := pcA,
    config := { hide_ui := none, include_paths := [], library_paths := [] },
    loading_state := .Pending, highlight := none, ui_is_visible := true }

/-- Concrete fixture: a visible idle system whose cache holds text X for
a.ui and tracks a.ui as a dependency. -/
def sysD : Sys :=
  { cache := cacheD, worker := none, published := [], panicked := false,
    reloads := 0, compiles := 0 }

/-- Concrete fixture: a one-element source node. -/
def nodeR : SNode := { source_file := 1, range_start := 0, range_end := 40 }

/-- Concrete fixture: a source node of a child sharing the range of nodeR. -/
def nodeC : SNode := { source_file := 1, range_start := 0, range_end := 40 }

/-- Concrete fixture: a leaf element. -/
def elemLeaf : Element := .mk false none [] (some { source_file := 2, range_start := 5, range_end := 9 })

/-- Concrete fixture: the root element of an embedded component. -/
def elemBase : Element := .mk false none [] (some { source_file := 3, range_start := 1, range_end := 4 })

/-- Concrete fixture: a repeated element wrapping elemBase. -/
def elemRep : Element := .mk true (some elemBase) [] (some { source_file := 2, range_start := 10, range_end := 20 })

/-- Concrete fixture: a scene root whose children are elemLeaf and elemRep. -/
def elemRoot : Element := .mk false none [elemLeaf, elemRep] (some nodeR)

/-- Concrete fixture: geometry giving elemLeaf a rectangle away from the
probe point, elemBase a rectangle containing it, and nothing else any
position. -/
def posFix : Element → Option LogicalRect
  | .mk _ _ _ (some n) =>
    if n.source_file = 2 ∧ n.range_start = 5 then some { origin_x := 100, origin_y := 100, width := 20, height := 20 }
    else if n.source_file = 3 then some { origin_x := 0, origin_y := 0, width := 20, height := 20 }
    else none
  | _ => none

/-- Concrete fixture: the probe point. -/
def ptFix : LogicalPoint := { x := 10, y := 10 }

/-- Looking a key up right after inserting it yields the inserted text. -/
theorem lookup_insert (p t : String) (m : List (String × String)) :
    lookupSrc (insertSrc p t m) p = some t := by
  induction m with
  | nil => simp [insertSrc, lookupSrc]
  | cons a rest ih =>
    by_cases h : a.1 = p
    · simp [insertSrc, lookupSrc, h]
    · simp [insertSrc, lookupSrc, h, ih]

/-- Fields of the system state that load_preview never changes, and the
reload counter it always bumps. -/
theorem load_preview_fields (pc : PreviewComponent) (t : Sys) :
    (load_preview pc t).reloads = t.reloads + 1 ∧
    (load_preview pc t).cache.source_code = t.cache.source_code ∧
    (load_preview pc t).cache.dependency = t.cache.dependency ∧
    (load_preview pc t).cache.ui_is_visible = t.cache.ui_is_visible ∧
    (load_preview pc t).compiles = t.compiles ∧
    (load_preview pc t).published = t.published ∧
    (load_preview pc t).panicked = t.panicked := by
  cases hv : t.cache.ui_is_visible <;> cases hst : t.cache.loading_state <;>
    simp [load_preview, hv, hst]

/-- Evaluation of load_preview while a compile is running: the in-flight
compile is marked stale and nothing else changes beyond the stored request
and the reload counter. -/
theorem load_preview_running (pc : PreviewComponent) (t : Sys)
    (hv : t.cache.ui_is_visible = true) (hst : t.cache.loading_state = .Loading) :
    load_preview pc t = { t with
                          reloads := t.reloads + 1,
                          cache := { t.cache with
                                       current := pc,
                                       loading_state := .NeedsReload } } := by
  simp [load_preview, hv, hst]

/-- Evaluation of load_preview while the in-flight compile is already
stale: only the stored request and the reload counter change. -/
theorem load_preview_stale (pc : PreviewComponent) (t : Sys)
    (hv : t.cache.ui_is_visible = true) (hst : t.cache.loading_state = .NeedsReload) :
    load_preview pc t = { t with
                          reloads := t.reloads + 1,
                          cache := { t.cache with current := pc } } := by
  simp [load_preview, hv, hst]

/-- Folding further requests over a state whose compile is already stale
leaves the loading state, visibility, worker and compile counter alone. -/
theorem apply_requests_stale (pcs : List PreviewComponent) (t : Sys)
    (hv : t.cache.ui_is_visible = true) (hst : t.cache.loading_state = .NeedsReload) :
    (apply_requests t pcs).cache.loading_state = .NeedsReload ∧
    (apply_requests t pcs).cache.ui_is_visible = true ∧
    (apply_requests t pcs).worker = t.worker ∧
    (apply_requests t pcs).compiles = t.compiles := by
  induction pcs generalizing t with
  | nil => exact ⟨hst, hv, rfl, rfl⟩
  | cons q rest ih =>
    have hl := load_preview_stale q t hv hst
    have h1 := ih (load_preview q t) (by rw [hl]; exact hv) (by rw [hl]; exact hst)
    simp only [apply_requests, List.foldl] at h1 ⊢
    refine ⟨h1.1, h1.2.1, ?_, ?_⟩
    · rw [h1.2.2.1, hl]
    · rw [h1.2.2.2, hl]

/-- Evaluation of compile_finish while the in-flight compile is stale: the
successful result is still appended to the published log, then the worker
loops back to PreLoading. -/
theorem compile_finish_stale (ok : Bool) (t : Sys) (snap : PreviewComponent)
    (cfg : PreviewConfig)
    (hw : t.worker = some (.compiling snap cfg))
    (hst : t.cache.loading_state = .NeedsReload) :
    compile_finish ok t = { t with
      cache := { t.cache with loading_state := .PreLoading },
      worker := some .atLoopStart,
      published := if ok then t.published ++ [snap] else t.published } := by
  cases ok <;> simp [compile_finish, hw, hst]

/-- Evaluation of compile_finish when the compile is still wanted: the
successful result is appended to the published log, the state finalizes to
Pending and the worker future exits. -/
theorem compile_finish_running (ok : Bool) (t : Sys) (snap : PreviewComponent)
    (cfg : PreviewConfig)
    (hw : t.worker = some (.compiling snap cfg))
    (hst : t.cache.loading_state = .Loading) :
    compile_finish ok t = { t with
      cache := { t.cache with loading_state := .Pending },
      worker := none,
      published := if ok then t.published ++ [snap] else t.published } := by
  cases ok <;> simp [compile_finish, hw, hst]

/-- Evaluation of the worker prologue in the visible case. -/
theorem worker_prologue_visible (t : Sys)
    (hst : t.cache.loading_state = .PreLoading)
    (hv : t.cache.ui_is_visible = true) :
    worker_prologue t = { t with
      cache := { t.cache with
                   loading_state := .Loading,
                   dependency := [],
                   current := { t.cache.current with style := "" } },
      worker := some (.compiling t.cache.current t.cache.config),
      compiles := t.compiles + 1 } := by
  simp [worker_prologue, hst, hv]

/-- Edits to an untracked path never reload: set_contents reduces to the
plain source-cache update. -/
theorem set_contents_untracked (p t : String) (s : Sys)
    (h : p ∉ s.cache.dependency) :
    set_contents p t s = sourceUpdate p t s := by
  simp [set_contents, h]

/-- Folding edits of an untracked path leaves the reload counter and the
dependency set alone. -/
theorem apply_edits_untracked (p : String) (ts : List String) (s : Sys)
    (h : p ∉ s.cache.dependency) :
    (apply_edits s p ts).reloads = s.reloads ∧
    (apply_edits s p ts).cache.dependency = s.cache.dependency := by
  induction ts generalizing s with
  | nil => exact ⟨rfl, rfl⟩
  | cons t rest ih =>
    have hset := set_contents_untracked p t s h
    have h2 : p ∉ (set_contents p t s).cache.dependency := by rw [hset]; exact h
    have h1 := ih (set_contents p t s) h2
    simp only [apply_edits, List.foldl] at h1 ⊢
    refine ⟨?_, ?_⟩
    · rw [h1.1, hset]; rfl
    · rw [h1.2, hset]; rfl

/-- The hit-testing loop over a list of children equals first-match search
over the children with each replaced by its embedded component root. -/
theorem findSome_hit_eq_find (position : Element → Option LogicalRect)
    (click : LogicalPoint) (l : List Element) :
    (l.findSome? fun c0 =>
      let c := self_or_embedded_component_root c0
      match position c with
      | none => none
      | some r => if r.contains click then some c else none)
    = (l.map self_or_embedded_component_root).find? (hit_pred position click) := by
  induction l with
  | nil => rfl
  | cons a t ih =>
    simp only [List.findSome?, List.map, List.find?]
    cases hp : position (self_or_embedded_component_root a) with
    | none => simp [hit_pred, hp, ih]
    | some r =>
      cases hc : r.contains click with
      | false => simp [hit_pred, hp, hc, ih]
      | true => simp [hit_pred, hp, hc]

/-- C5: hit-testing iterates the direct children of the scene root in
document order and returns the first child whose on-screen geometry
contains the point, none when no child contains it; each child is first
replaced by the root element of its embedded sub-component when it is the
root of a repeated sub-component, so the returned element is never the
internal wrapper. -/
theorem C5_hit_testing_first_match (position : Element → Option LogicalRect)
    (click : LogicalPoint) (root : Element) :
    select_element_at_impl position click root
      = (root.children.map self_or_embedded_component_root).find?
          (hit_pred position click) :=
  findSome_hit_eq_find position click root.children

/-- C6 counterexample: a non-empty relative file path with both columns
non-zero still yields no show-document request, because the conversion of
the path to a file URL fails. -/
theorem C6_relative_path_suppressed :
    show_document_request_from_element_callback "a.ui"
        { start := { line := 3, character := 5 },
          «end» := { line := 3, character := 9 } } = none
    ∧ "a.ui" ≠ "" ∧ (5 : Nat) ≠ 0 ∧ (9 : Nat) ≠ 0 := by
  refine ⟨rfl, by decide, by decide, by decide⟩

/-- C6 (amended): building a show-document request yields Some exactly
when the file string is non-empty, both columns are non-zero and the file
converts to a file URL (an absolute path); when the file is empty, either
column is zero, or the conversion fails, the result is none. -/
theorem C6_show_document_iff (file : String) (range : Range) :
    (show_document_request_from_element_callback file range).isSome = true ↔
      (file ≠ "" ∧ range.start.character ≠ 0 ∧ range.«end».character ≠ 0 ∧
       (url_from_file_path file).isSome = true) := by
  by_cases h : file = "" ∨ range.start.character = 0 ∨ range.«end».character = 0
  · rw [show_document_request_from_element_callback, if_pos h]
    simp only [Option.isSome_none, Bool.false_eq_true, false_iff]
    intro hc
    rcases h with h | h | h
    · exact hc.1 h
    · exact hc.2.1 h
    · exact hc.2.2.1 h
  · rw [show_document_request_from_element_callback, if_neg h]
    push_neg at h
    simp [Option.isSome_map, h.1, h.2.1, h.2.2]

/-- C6 witness: at an absolute path with non-zero columns the request is
produced, and the equivalence instantiates there. -/
theorem C6_show_document_iff_witness :
    (show_document_request_from_element_callback "/a.ui"
        { start := { line := 3, character := 5 },
          «end» := { line := 3, character := 9 } }).isSome = true := by
  rw [C6_show_document_iff "/a.ui"
        { start := { line := 3, character := 5 },
          «end» := { line := 3, character := 9 } }]
  refine ⟨by decide, by decide, by decide, rfl⟩

/-- C7: root resolution returns the single child of the nominal scene root
exactly when the root has exactly one child, both have source nodes from
the identical source file and their text ranges coincide; otherwise the
nominal root itself. -/
theorem C7_root_resolution (root : Element) :
    root_element root = root_element_spec root := by
  obtain ⟨rep, br, children, node⟩ := root
  cases children with
  | nil => rfl
  | cons a t =>
    cases t with
    | cons b t2 => rfl
    | nil =>
      obtain ⟨arep, abr, ach, anode⟩ := a
      cases node with
      | none =>
        cases anode <;>
          simp [root_element, root_element_spec, element_source_range,
                Element.children, Element.node]
      | some rn =>
        cases anode with
        | none =>
          simp [root_element, root_element_spec, element_source_range,
                Element.children, Element.node]
        | some cn =>
          simp only [root_element, root_element_spec, element_source_range,
                     Element.children, Element.node, List.length, List.head?]
          split <;> simp_all

/-- Calling highlight with arguments matching the stored highlight leaves
the cache unchanged and calls nothing. -/
theorem highlight_noop (p : Option String) (o : Nat) (c : ContentCache)
    (h : c.highlight = Option.map (fun q => (q, o)) p) :
    highlight p o c = (c, none) := by
  simp [highlight, h]

/-- C8: requesting a highlight for a path stores it as the current
highlight; update_highlight is called only when the path is a tracked
dependency, and an untracked path is stored with no visible effect. -/
theorem C8_highlight_only_tracked (p : String) (o : Nat) (cache : ContentCache) :
    ((highlight (some p) o cache).1.highlight = some (p, o)) ∧
    ((highlight (some p) o cache).2 ≠ none → p ∈ cache.dependency) ∧
    (p ∉ cache.dependency → (highlight (some p) o cache).2 = none) := by
  by_cases h : cache.highlight = some (p, o)
  · simp [highlight, h]
  · by_cases hd : p ∈ cache.dependency
    · simp [highlight, h, hd]
    · simp [highlight, h, hd]

/-- C8 witness: with dependency set holding only a.ui, highlighting b.ui
is stored but calls nothing, instantiating the theorem there. -/
theorem C8_highlight_only_tracked_witness :
    ((highlight (some "b.ui") 7 cacheD).1.highlight = some ("b.ui", 7)) ∧
    ((highlight (some "b.ui") 7 cacheD).2 = none) := by
  have h := C8_highlight_only_tracked "b.ui" 7 cacheD
  exact ⟨h.1, h.2.2 (by decide)⟩

/-- C9: highlight is idempotent: repeating a call with identical path and
offset on the state the first call produced changes nothing and does not
call update_highlight again. -/
theorem C9_highlight_idempotent (p : Option String) (o : Nat) (cache : ContentCache) :
    highlight p o (highlight p o cache).1 = ((highlight p o cache).1, none) := by
  have key : (highlight p o cache).1.highlight = Option.map (fun q => (q, o)) p := by
    cases p with
    | none =>
      by_cases h : cache.highlight = none
      · simp [highlight, h]
      · simp [highlight, h]
    | some q =>
      by_cases h : cache.highlight = some (q, o)
      · simp [highlight, h]
      · by_cases hd : q ∈ cache.dependency
        · simp [highlight, h, hd]
        · simp [highlight, h, hd]
  exact highlight_noop p o (highlight p o cache).1 key

/-- load_preview preserves the system invariant. -/
theorem inv_load (pc : PreviewComponent) (s : Sys) (h : Inv s) :
    Inv (load_preview pc s) := by
  obtain ⟨hp, hw⟩ := h
  cases hv : s.cache.ui_is_visible with
  | false =>
    have he : load_preview pc s = { s with
        reloads := s.reloads + 1,
        cache := { s.cache with current := pc } } := by
      simp [load_preview, hv]
    rw [he]; exact ⟨hp, hw⟩
  | true =>
    rcases hwk : s.worker with _ | ph
    · have hw2 := hw; rw [hwk] at hw2
      have hst : s.cache.loading_state = .Pending := hw2
      have he : load_preview pc s = { s with
          reloads := s.reloads + 1,
          cache := { s.cache with current := pc, loading_state := .PreLoading },
          worker := some .atLoopStart } := by
        simp [load_preview, hv, hst]
      rw [he]; exact ⟨hp, rfl⟩
    · cases ph with
      | atLoopStart =>
        have hw2 := hw; rw [hwk] at hw2
        have hst : s.cache.loading_state = .PreLoading := hw2
        have he : load_preview pc s = { s with
            reloads := s.reloads + 1,
            cache := { s.cache with current := pc } } := by
          simp [load_preview, hv, hst]
        rw [he]; exact ⟨hp, hw⟩
      | compiling snap cfg =>
        have hw2 := hw; rw [hwk] at hw2
        rcases hw2 with hst | hst
        · rw [load_preview_running pc s hv hst]
          refine ⟨hp, ?_⟩
          rw [hwk]
          exact Or.inr rfl
        · rw [load_preview_stale pc s hv hst]
          exact ⟨hp, hw⟩

/-- The worker prologue preserves the system invariant. -/
theorem inv_prologue (s : Sys) (h : Inv s) (hwk : s.worker = some .atLoopStart) :
    Inv (worker_prologue s) := by
  obtain ⟨hp, hw⟩ := h
  have hw2 := hw; rw [hwk] at hw2
  have hst : s.cache.loading_state = .PreLoading := hw2
  cases hv : s.cache.ui_is_visible with
  | false =>
    have he : worker_prologue s = { s with
        cache := { s.cache with loading_state := .Pending }, worker := none } := by
      simp [worker_prologue, hst, hv]
    rw [he]; exact ⟨hp, rfl⟩
  | true =>
    rw [worker_prologue_visible s hst hv]
    exact ⟨hp, Or.inl rfl⟩

/-- Completion of a compile preserves the system invariant. -/
theorem inv_finish (ok : Bool) (snap : PreviewComponent) (cfg : PreviewConfig)
    (s : Sys) (h : Inv s) (hwk : s.worker = some (.compiling snap cfg)) :
    Inv (compile_finish ok s) := by
  obtain ⟨hp, hw⟩ := h
  have hw2 := hw; rw [hwk] at hw2
  rcases hw2 with hst | hst
  · rw [compile_finish_running ok s snap cfg hwk hst]
    exact ⟨hp, rfl⟩
  · rw [compile_finish_stale ok s snap cfg hwk hst]
    exact ⟨hp, rfl⟩

/-- set_contents preserves the system invariant. -/
theorem inv_edit (p t : String) (s : Sys) (h : Inv s) : Inv (set_contents p t s) := by
  have hsrc : Inv (sourceUpdate p t s) := ⟨h.1, h.2⟩
  unfold set_contents
  split
  · split
    · split
      · exact hsrc
      · split
        · exact inv_load _ _ hsrc
        · exact hsrc
    · split
      · exact inv_load _ _ hsrc
      · exact hsrc
  · exact hsrc

/-- config_changed preserves the system invariant. -/
theorem inv_reconfigure (c : PreviewConfig) (s : Sys) (h : Inv s) :
    Inv (config_changed c s) := by
  have hbase : Inv { s with cache := { s.cache with config := c } } := ⟨h.1, h.2⟩
  unfold config_changed
  split
  · exact h
  · split
    · exact inv_load _ _ hbase
    · exact hbase

/-- The visibility toggle preserves the system invariant. -/
theorem inv_visibility (b : Bool) (s : Sys) (h : Inv s) : Inv (set_ui_visible b s) := by
  have hbase : Inv { s with cache := { s.cache with ui_is_visible := b } } := ⟨h.1, h.2⟩
  unfold set_ui_visible
  split
  · exact inv_load _ _ hbase
  · exact hbase

/-- highlight changes neither the loading state nor the visibility flag of
the cache. -/
theorem highlight_cache_fields (p : Option String) (o : Nat) (c : ContentCache) :
    (highlight p o c).1.loading_state = c.loading_state ∧
    (highlight p o c).1.ui_is_visible = c.ui_is_visible := by
  unfold highlight
  split
  · exact ⟨rfl, rfl⟩
  · split
    · exact ⟨rfl, rfl⟩
    · split
      · exact ⟨rfl, rfl⟩
      · exact ⟨rfl, rfl⟩

/-- The highlight entry point preserves the system invariant. -/
theorem inv_mark (p : Option String) (o : Nat) (s : Sys) (h : Inv s) :
    Inv (highlight_step p o s) := by
  refine ⟨h.1, ?_⟩
  show workerOK s.worker (highlight p o s.cache).1.loading_state
  rw [(highlight_cache_fields p o s.cache).1]
  exact h.2

/-- Every step of the system preserves the invariant. -/
theorem inv_step {s s2 : Sys} (h : Inv s) (hs : Step s s2) : Inv s2 := by
  cases hs with
  | load pc s => exact inv_load pc s h
  | edit p t s => exact inv_edit p t s h
  | reconfigure c s => exact inv_reconfigure c s h
  | visibility b s => exact inv_visibility b s h
  | mark p o s => exact inv_mark p o s h
  | prologue s hw => exact inv_prologue s h hw
  | read p snap cfg s hw => exact ⟨h.1, h.2⟩
  | finish ok snap cfg s hw => exact inv_finish ok snap cfg s h hw

/-- Every reachable state satisfies the invariant: in particular no assert
or unreachable branch has ever fired. -/
theorem inv_reachable (s : Sys) (h : Reachable s) : Inv s := by
  induction h with
  | init => exact ⟨rfl, rfl⟩
  | step hr hs ih => exact inv_step ih hs

/-- The loading-state transition taken by load_preview is allowed. -/
theorem load_preview_trans (pc : PreviewComponent) (s : Sys) :
    LoadTransOK s.cache.loading_state (load_preview pc s).cache.loading_state := by
  cases hv : s.cache.ui_is_visible <;> cases hst : s.cache.loading_state <;>
    simp [load_preview, hv, hst, LoadTransOK]

/-- In a state satisfying the invariant, every step takes an allowed
loading-state transition. -/
theorem step_load_trans {s s2 : Sys} (h : Inv s) (hs : Step s s2) :
    LoadTransOK s.cache.loading_state s2.cache.loading_state := by
  cases hs with
  | load pc s => exact load_preview_trans pc s
  | edit p t s =>
    unfold set_contents
    split
    · split
      · split
        · exact Or.inl rfl
        · split
          · exact load_preview_trans s.cache.current (sourceUpdate p t s)
          · exact Or.inl rfl
      · split
        · exact load_preview_trans s.cache.current (sourceUpdate p t s)
        · exact Or.inl rfl
    · exact Or.inl rfl
  | reconfigure c s =>
    unfold config_changed
    split
    · exact Or.inl rfl
    · split
      · exact load_preview_trans s.cache.current
          { s with cache := { s.cache with config := c } }
      · exact Or.inl rfl
  | visibility b s =>
    unfold set_ui_visible
    split
    · exact load_preview_trans s.cache.current
        { s with cache := { s.cache with ui_is_visible := b } }
    · exact Or.inl rfl
  | mark p o s =>
    exact Or.inl (highlight_cache_fields p o s.cache).1.symm
  | prologue s hwk =>
    have hw2 := h.2; rw [hwk] at hw2
    have hst : s.cache.loading_state = .PreLoading := hw2
    cases hv : s.cache.ui_is_visible with
    | false =>
      have he : worker_prologue s = { s with
          cache := { s.cache with loading_state := .Pending }, worker := none } := by
        simp [worker_prologue, hst, hv]
      rw [he]
      exact Or.inr (Or.inr (Or.inr (Or.inl ⟨hst, rfl⟩)))
    | true =>
      rw [worker_prologue_visible s hst hv]
      exact Or.inr (Or.inr (Or.inl ⟨hst, rfl⟩))
  | read p snap cfg s hwk => exact Or.inl rfl
  | finish ok snap cfg s hwk =>
    have hw2 := h.2; rw [hwk] at hw2
    rcases hw2 with hst | hst
    · rw [compile_finish_running ok s snap cfg hwk hst]
      exact Or.inr (Or.inr (Or.inr (Or.inr (Or.inl ⟨hst, rfl⟩))))
    · rw [compile_finish_stale ok s snap cfg hwk hst]
      exact Or.inr (Or.inr (Or.inr (Or.inr (Or.inr (Or.inr ⟨hst, rfl⟩)))))

/-- C1 counterexample: along the concrete reachable trace where the
compile of the request for a.ui is marked stale by a request for b.ui
(loading state NeedsReload) before it completes, its successful completion
still hands the result of a.ui to the rendering surface: the published log
goes from empty to holding exactly that result. -/
theorem C1_stale_result_is_published :
    Reachable sysS ∧ Step sysS sysF ∧
    sysS.cache.loading_state = .NeedsReload ∧
    sysS.worker = some (.compiling pcA init.cache.config) ∧
    sysS.published = [] ∧
    sysF.published = [pcA] := by
  refine ⟨?_, ?_, rfl, rfl, rfl, rfl⟩
  · exact Reachable.step (Reachable.step (Reachable.step (Reachable.step Reachable.init
      (Step.visibility true init)) (Step.load pcA sysV)) (Step.prologue sysP rfl))
      (Step.load pcB sysL)
  · exact Step.finish true pcA init.cache.config sysS rfl

/-- C1 (amended): a compile that was marked stale before completion still
has its result published to the rendering surface when it completes
successfully (the publish call precedes the staleness check); the worker
then immediately schedules the follow-up compile, after which the preview
changes again. -/
theorem C1_stale_publish_then_reschedule (s : Sys) (snap : PreviewComponent)
    (cfg : PreviewConfig)
    (hw : s.worker = some (.compiling snap cfg))
    (hst : s.cache.loading_state = .NeedsReload) :
    (compile_finish true s).published = s.published ++ [snap] ∧
    (compile_finish true s).cache.loading_state = .PreLoading ∧
    (compile_finish true s).worker = some .atLoopStart := by
  rw [compile_finish_stale true s snap cfg hw hst]
  exact ⟨rfl, rfl, rfl⟩

/-- C1 witness: the amended statement instantiated on the concrete stale
state of the counterexample trace. -/
theorem C1_stale_publish_then_reschedule_witness :
    (compile_finish true sysS).published = sysS.published ++ [pcA] ∧
    (compile_finish true sysS).cache.loading_state = .PreLoading ∧
    (compile_finish true sysS).worker = some .atLoopStart :=
  C1_stale_publish_then_reschedule sysS pcA init.cache.config rfl rfl

/-- C2: requests arriving while a compile is running coalesce: with the UI
visible, the first request moves the loading state from Loading to
NeedsReload, any number of further requests leave the loading state, the
worker and the compile counter unchanged, and once the in-flight compile
finishes the worker runs exactly one more iteration: one further compile
starts, and after it finishes the machine is idle with no worker left. -/
theorem C2_requests_coalesce (s : Sys) (snap : PreviewComponent)
    (cfg : PreviewConfig) (pc : PreviewComponent) (pcs : List PreviewComponent)
    (hvis : s.cache.ui_is_visible = true)
    (hst : s.cache.loading_state = .Loading)
    (hw : s.worker = some (.compiling snap cfg)) :
    (load_preview pc s).cache.loading_state = .NeedsReload ∧
    (apply_requests s (pc :: pcs)).cache.loading_state = .NeedsReload ∧
    (apply_requests s (pc :: pcs)).worker = s.worker ∧
    (apply_requests s (pc :: pcs)).compiles = s.compiles ∧
    ∀ ok1 ok2 : Bool,
      (compile_finish ok1 (apply_requests s (pc :: pcs))).worker
          = some .atLoopStart ∧
      (compile_finish ok1 (apply_requests s (pc :: pcs))).cache.loading_state
          = .PreLoading ∧
      (worker_prologue (compile_finish ok1 (apply_requests s (pc :: pcs)))).compiles
          = s.compiles + 1 ∧
      (compile_finish ok2 (worker_prologue
          (compile_finish ok1 (apply_requests s (pc :: pcs))))).cache.loading_state
          = .Pending ∧
      (compile_finish ok2 (worker_prologue
          (compile_finish ok1 (apply_requests s (pc :: pcs))))).worker = none ∧
      (compile_finish ok2 (worker_prologue
          (compile_finish ok1 (apply_requests s (pc :: pcs))))).compiles
          = s.compiles + 1 := by
  have hfirst : (load_preview pc s).cache.loading_state = .NeedsReload := by
    rw [load_preview_running pc s hvis hst]
  have hvis1 : (load_preview pc s).cache.ui_is_visible = true := by
    rw [load_preview_running pc s hvis hst]; exact hvis
  have hA := apply_requests_stale pcs (load_preview pc s) hvis1 hfirst
  have hAseq : apply_requests s (pc :: pcs) = apply_requests (load_preview pc s) pcs := rfl
  have hAw : (apply_requests s (pc :: pcs)).worker = s.worker := by
    rw [hAseq, hA.2.2.1, load_preview_running pc s hvis hst]
  have hAc : (apply_requests s (pc :: pcs)).compiles = s.compiles := by
    rw [hAseq, hA.2.2.2, load_preview_running pc s hvis hst]
  have hAst : (apply_requests s (pc :: pcs)).cache.loading_state = .NeedsReload := by
    rw [hAseq]; exact hA.1
  have hAvis : (apply_requests s (pc :: pcs)).cache.ui_is_visible = true := by
    rw [hAseq]; exact hA.2.1
  have hAwk : (apply_requests s (pc :: pcs)).worker = some (.compiling snap cfg) := by
    rw [hAw, hw]
  refine ⟨hfirst, hAst, hAw, hAc, ?_⟩
  intro ok1 ok2
  have hF1 := compile_finish_stale ok1 (apply_requests s (pc :: pcs)) snap cfg hAwk hAst
  have hF1w : (compile_finish ok1 (apply_requests s (pc :: pcs))).worker
      = some .atLoopStart := by rw [hF1]
  have hF1st : (compile_finish ok1 (apply_requests s (pc :: pcs))).cache.loading_state
      = .PreLoading := by rw [hF1]
  have hF1vis : (compile_finish ok1 (apply_requests s (pc :: pcs))).cache.ui_is_visible
      = true := by rw [hF1]; exact hAvis
  have hF1c : (compile_finish ok1 (apply_requests s (pc :: pcs))).compiles
      = s.compiles := by rw [hF1]; exact hAc
  have hP := worker_prologue_visible (compile_finish ok1 (apply_requests s (pc :: pcs)))
      hF1st hF1vis
  have hPc : (worker_prologue (compile_finish ok1 (apply_requests s (pc :: pcs)))).compiles
      = s.compiles + 1 := by rw [hP]; simp [hF1c]
  have hPst : (worker_prologue (compile_finish ok1 (apply_requests s (pc :: pcs)))).cache.loading_state
      = .Loading := by rw [hP]
  have hPwk : (worker_prologue (compile_finish ok1 (apply_requests s (pc :: pcs)))).worker
      = some (.compiling (compile_finish ok1 (apply_requests s (pc :: pcs))).cache.current
          (compile_finish ok1 (apply_requests s (pc :: pcs))).cache.config) := by rw [hP]
  have hF2 := compile_finish_running ok2
      (worker_prologue (compile_finish ok1 (apply_requests s (pc :: pcs)))) _ _ hPwk hPst
  refine ⟨hF1w, hF1st, hPc, ?_, ?_, ?_⟩
  · rw [hF2]
  · rw [hF2]
  · rw [hF2]; exact hPc

/-- C2 witness: the coalescing statement instantiated on the concrete
running state sysL with two requests for b.ui and successful compiles. -/
theorem C2_requests_coalesce_witness :
    (apply_requests sysL [pcB, pcB]).cache.loading_state = .NeedsReload ∧
    (apply_requests sysL [pcB, pcB]).compiles = sysL.compiles ∧
    (compile_finish true (worker_prologue
        (compile_finish true (apply_requests sysL [pcB, pcB])))).compiles
      = sysL.compiles + 1 := by
  have h := C2_requests_coalesce sysL pcA init.cache.config pcB [pcB] rfl rfl rfl
  exact ⟨h.2.1, h.2.2.2.1, ((h.2.2.2.2 true true).2.2.2.2.2)⟩

/-- C3: edits through set_contents to a path outside the dependency set
never invoke load_preview, while every edit of the sequence still stores
its text in the source cache. -/
theorem C3_untracked_edits_never_reload (p : String) (ts : List String) (s : Sys)
    (h : p ∉ s.cache.dependency) :
    (apply_edits s p ts).reloads = s.reloads ∧
    ∀ l1 t l2, ts = l1 ++ t :: l2 →
      lookupSrc (apply_edits s p (l1 ++ [t])).cache.source_code p = some t := by
  refine ⟨(apply_edits_untracked p ts s h).1, ?_⟩
  intro l1 t l2 _
  have h1 : p ∉ (apply_edits s p l1).cache.dependency := by
    rw [(apply_edits_untracked p l1 s h).2]; exact h
  have hsplit : apply_edits s p (l1 ++ [t]) = set_contents p t (apply_edits s p l1) := by
    simp [apply_edits, List.foldl_append]
  rw [hsplit, set_contents_untracked p t (apply_edits s p l1) h1]
  exact lookup_insert p t (apply_edits s p l1).cache.source_code

/-- C3 witness: two edits of the untracked path b.ui on the concrete state
sysD schedule no reload and the first edit stores its text. -/
theorem C3_untracked_edits_never_reload_witness :
    (apply_edits sysD "b.ui" ["X1", "Y1"]).reloads = sysD.reloads ∧
    lookupSrc (apply_edits sysD "b.ui" ["X1"]).cache.source_code "b.ui" = some "X1" := by
  have h := C3_untracked_edits_never_reload "b.ui" ["X1", "Y1"] sysD (by decide)
  exact ⟨h.1, h.2 [] "X1" ["Y1"] rfl⟩

/-- C4: on a visible preview with a current component, an edit of a
tracked path with identical content triggers no reload, an edit with
different content triggers exactly one reload, and in both cases the new
text is stored in the cache. -/
theorem C4_tracked_edit_reloads_once (p t tn : String) (s : Sys)
    (hdep : p ∈ s.cache.dependency)
    (hcached : lookupSrc s.cache.source_code p = some t)
    (hvis : s.cache.ui_is_visible = true)
    (hpath : s.cache.current.path ≠ "")
    (hne : tn ≠ t) :
    (set_contents p t s).reloads = s.reloads ∧
    lookupSrc (set_contents p t s).cache.source_code p = some t ∧
    (set_contents p tn s).reloads = s.reloads + 1 ∧
    lookupSrc (set_contents p tn s).cache.source_code p = some tn := by
  have hsame : set_contents p t s = sourceUpdate p t s := by
    simp [set_contents, hdep, hcached]
  have hdiff : set_contents p tn s = load_preview s.cache.current (sourceUpdate p tn s) := by
    simp [set_contents, hdep, hcached, hne, hvis, hpath]
  refine ⟨?_, ?_, ?_, ?_⟩
  · rw [hsame]; rfl
  · rw [hsame]; exact lookup_insert p t s.cache.source_code
  · rw [hdiff, (load_preview_fields s.cache.current (sourceUpdate p tn s)).1]; rfl
  · rw [hdiff, (load_preview_fields s.cache.current (sourceUpdate p tn s)).2.1]
    exact lookup_insert p tn s.cache.source_code

/-- C4 witness: on the concrete visible state sysD tracking a.ui with text
X, rewriting X triggers no reload and writing Y triggers exactly one. -/
theorem C4_tracked_edit_reloads_once_witness :
    (set_contents "a.ui" "X" sysD).reloads = sysD.reloads ∧
    (set_contents "a.ui" "Y" sysD).reloads = sysD.reloads + 1 := by
  have h := C4_tracked_edit_reloads_once "a.ui" "X" "Y" sysD (by decide) rfl rfl
      (by decide) (by decide)
  exact ⟨h.1, h.2.2.1⟩

/-- C10 counterexample: the loading-state machine also takes the
transition from PreLoading to Pending, which the claimed transition list
does not contain: on the concrete reachable state sysH (worker spawned,
then the UI hidden before the worker began), the prologue step moves the
loading state from PreLoading to Pending. -/
theorem C10_preloading_to_pending_reachable :
    Reachable sysH ∧ Step sysH sysQ ∧
    sysH.cache.loading_state = .PreLoading ∧
    sysQ.cache.loading_state = .Pending ∧
    sysH.panicked = false ∧ sysQ.panicked = false := by
  refine ⟨?_, ?_, rfl, rfl, rfl, rfl⟩
  · exact Reachable.step (Reachable.step (Reachable.step Reachable.init
      (Step.visibility true init)) (Step.load pcA sysV)) (Step.visibility false sysP)
  · exact Step.prologue sysH rfl

/-- C10 (amended): in every reachable state the assertion at the top of
the worker loop holds (a worker at the loop start always finds PreLoading)
and the unreachable branches after a compile are never taken (a compiling
worker always finds Loading or NeedsReload), so no panic ever fires; and
every step follows one of the transitions Pending to PreLoading,
PreLoading to Loading, PreLoading to Pending (the UI turned invisible
before the worker began), Loading to Pending, Loading to NeedsReload,
NeedsReload to PreLoading, or leaves the loading state unchanged. -/
theorem C10_state_machine_safety (s : Sys) (h : Reachable s) :
    s.panicked = false ∧
    (s.worker = some .atLoopStart → s.cache.loading_state = .PreLoading) ∧
    (∀ snap cfg, s.worker = some (.compiling snap cfg) →
       s.cache.loading_state = .Loading ∨ s.cache.loading_state = .NeedsReload) ∧
    (∀ s2, Step s s2 → LoadTransOK s.cache.loading_state s2.cache.loading_state) := by
  have hinv := inv_reachable s h
  obtain ⟨hp, hw⟩ := hinv
  refine ⟨hp, ?_, ?_, ?_⟩
  · intro hwk
    have hw2 := hw; rw [hwk] at hw2
    exact hw2
  · intro snap cfg hwk
    have hw2 := hw; rw [hwk] at hw2
    exact hw2
  · intro s2 hs
    exact step_load_trans ⟨hp, hw⟩ hs

/-- C10 witness: the amended statement instantiated at the initial state,
which is reachable by construction. -/
theorem C10_state_machine_safety_witness :
    init.panicked = false :=
  (C10_state_machine_safety init Reachable.init).1

end Slint
